import Mathlib

/-!
# Verification of the mesa grid space (`src/mesa/space/grid.py`)

A shallow embedding of the rectangular grid space of the mesa fork:
the three occupancy policies (`MultiGrid` for multi-occupancy,
`SingleGrid` for exclusive single-occupancy, `Grid` for
exclusive-with-eviction), the empty-cell tracker, the neighborhood
calculator with its memoization cache, and the placement protocol
(`place_agent`, `remove_agent`, `move_agent`, `move_to_empty`,
`position_agent`).

Coordinates are pairs of integers; agents are identified by natural
numbers, and the agent's `pos` back-reference field is modelled as a map
from agent ids to `Option Coordinate` (`none` standing for Python's
`None`, i.e. unplaced).  Mutating operations return the state paired
with an optional error; on error the returned state is the state at the
moment the exception was raised (Python exceptions leave earlier
mutations in place, which matters for atomicity claims).
-/

namespace Mesa

/-- A grid coordinate `(x, y)`, as in the Python `Coordinate = Tuple[int, int]`. -/
abbrev Coordinate := Int × Int

/-- Agents are identified by a natural number id. -/
abbrev AgentId := Nat

/-- The fixed topology of a grid: `width`, `height`, `torus`
(set in `MultiGrid.__init__` and never mutated). -/
structure GridTopo where
  width : Int
  height : Int
  torus : Bool
deriving DecidableEq, Repr

/-- The in-bounds predicate: `0 ≤ x < width` and `0 ≤ y < height`. -/
def in_bounds (g : GridTopo) (p : Coordinate) : Prop :=
  0 ≤ p.1 ∧ p.1 < g.width ∧ 0 ≤ p.2 ∧ p.2 < g.height

instance (g : GridTopo) (p : Coordinate) : Decidable (in_bounds g p) := by
  unfold in_bounds; infer_instance

/-- `self._all_cells`: the frozen set
`product(range(width), range(height))` built in `__init__`. -/
def all_cells (g : GridTopo) : Finset Coordinate :=
  Finset.Icc 0 (g.width - 1) ×ˢ Finset.Icc 0 (g.height - 1)

/-- `MultiGrid.out_of_bounds`: `tuple(pos) not in self._all_cells`. -/
def out_of_bounds (g : GridTopo) (p : Coordinate) : Bool :=
  decide (p ∉ all_cells g)

theorem mem_all_cells {g : GridTopo} {p : Coordinate} :
    p ∈ all_cells g ↔ in_bounds g p := by
  obtain ⟨x, y⟩ := p
  simp [all_cells, in_bounds, Finset.mem_product, Finset.mem_Icc]
  omega

theorem out_of_bounds_eq_false {g : GridTopo} {p : Coordinate} :
    out_of_bounds g p = false ↔ in_bounds g p := by
  simp [out_of_bounds, mem_all_cells]

theorem out_of_bounds_eq_true {g : GridTopo} {p : Coordinate} :
    out_of_bounds g p = true ↔ ¬ in_bounds g p := by
  simp [out_of_bounds, mem_all_cells]

/-- Errors raised by the grid operations (Python raises `Exception`s with
messages; the spec names them `OutOfBounds`, `CellOccupied`, `NotPlaced`,
`GridFull`; `valueError` stands for the `ValueError` of `list.remove` on a
missing element, and `notPlaced` for unpacking a `None` position). -/
inductive GridError where
  | outOfBounds
  | cellOccupied
  | notPlaced
  | gridFull
  | valueError
deriving DecidableEq, Repr

/-- `MultiGrid.torus_adj`: return `pos` unchanged when in bounds; raise when
out of bounds on a non-torus grid; otherwise wrap with Python's `%`
(mathematical modulo, i.e. `Int.emod`). -/
def torus_adj (g : GridTopo) (p : Coordinate) : Except GridError Coordinate :=
  if out_of_bounds g p = false then .ok p
  else if g.torus = false then .error .outOfBounds
  else .ok (p.1 % g.width, p.2 % g.height)

/-- Lexicographic (x-major) order on coordinates: Python's tuple `<=`,
used by `sorted`. -/
def cle (a b : Coordinate) : Prop :=
  a.1 < b.1 ∨ (a.1 = b.1 ∧ a.2 ≤ b.2)

instance : DecidableRel cle := by
  unfold cle; infer_instance

instance : IsTrans Coordinate cle := by
  constructor; intro a b c hab hbc; unfold cle at *; omega

instance : IsAntisymm Coordinate cle := by
  constructor; intro a b hab hba; unfold cle at *
  obtain ⟨a1, a2⟩ := a; obtain ⟨b1, b2⟩ := b
  simp only [Prod.mk.injEq]; omega

instance : IsTotal Coordinate cle := by
  constructor; intro a b; unfold cle; omega

/-- Insert a coordinate into a `cle`-sorted list, keeping it sorted. -/
def insert_sorted (c : Coordinate) : List Coordinate → List Coordinate
  | [] => [c]
  | d :: l => if cle c d then c :: d :: l else d :: insert_sorted c l

/-- Insertion sort by the lexicographic order `cle`: the embedding of
Python's `sorted` on a list of coordinate tuples. -/
def sort_coords (l : List Coordinate) : List Coordinate :=
  l.foldr insert_sorted []

/-- `range(-radius, radius + 1)` as a list of integers. -/
def int_range (radius : Nat) : List Int :=
  (List.range (2 * radius + 1)).map (fun (i : Nat) => (i : Int) - (radius : Int))

/-- The two `continue` guards of the `get_neighborhood` loop, as a single
keep-predicate on the offset `(dx, dy)`: keep unless it is the excluded
center (`dx == 0 and dy == 0 and not include_center`) and unless the
Von-Neumann shape excludes it (`not moore and abs(dx) + abs(dy) > radius`). -/
def keep_offset (moore include_center : Bool) (radius : Nat) (d : Int × Int) : Prop :=
  ¬(d.1 = 0 ∧ d.2 = 0 ∧ include_center = false) ∧
  ¬(moore = false ∧ (radius : Int) < |d.1| + |d.2|)

instance (moore include_center : Bool) (radius : Nat) (d : Int × Int) :
    Decidable (keep_offset moore include_center radius d) := by
  unfold keep_offset; infer_instance

/-- The bounds handling for one candidate coordinate in the loop: keep an
in-bounds candidate, wrap an out-of-bounds one on a torus (`torus_adj`),
and discard it (`continue`) on a bounded grid. -/
def wrap_cand (g : GridTopo) (c : Coordinate) : Option Coordinate :=
  if out_of_bounds g c = true then
    if g.torus = false then none
    else some (c.1 % g.width, c.2 % g.height)
  else some c

/-- The candidate coordinates enumerated by `MultiGrid.get_neighborhood`
on a cache miss, in loop order (`dy` outer, `dx` inner). -/
def neighborhood_cands (g : GridTopo) (pos : Coordinate) (moore include_center : Bool)
    (radius : Nat) : List Coordinate :=
  (int_range radius).flatMap (fun dy =>
    (int_range radius).filterMap (fun dx =>
      if keep_offset moore include_center radius (dx, dy)
      then wrap_cand g (pos.1 + dx, pos.2 + dy)
      else none))

/-- The square of offsets `[-radius, radius] × [-radius, radius]` the loop
ranges over. -/
def offset_box (radius : Nat) : Finset (Int × Int) :=
  Finset.Icc (-(radius : Int)) (radius : Int) ×ˢ Finset.Icc (-(radius : Int)) (radius : Int)

/-- The set of offsets the loop keeps. -/
def kept_offsets (moore include_center : Bool) (radius : Nat) : Finset (Int × Int) :=
  (offset_box radius).filter (keep_offset moore include_center radius)

/-- The neighborhood value computed on a cache miss: the candidates are
collected into a set (deduplication) and returned sorted ascending by
`(x, y)` — Python's `sorted(coordinates)`. -/
def compute_neighborhood (g : GridTopo) (pos : Coordinate) (moore include_center : Bool)
    (radius : Nat) : List Coordinate :=
  sort_coords (neighborhood_cands g pos moore include_center radius).dedup

/-- A key of the neighborhood cache: `(pos, moore, include_center, radius)`. -/
abbrev CacheKey := Coordinate × Bool × Bool × Nat

/-- The memoization cache `_neighborhood_cache`, an association list of
entries in insertion order (a Python `dict`). -/
structure NbCache where
  entries : List (CacheKey × List Coordinate)
deriving DecidableEq, Repr

/-- `MultiGrid.get_neighborhood`: look the 4-tuple key up in the cache;
on a hit return the cached list unmodified; on a miss compute the sorted
neighborhood, insert it, and return it. -/
def get_neighborhood (g : GridTopo) (c : NbCache) (pos : Coordinate)
    (moore include_center : Bool) (radius : Nat) : List Coordinate × NbCache :=
  match List.lookup (pos, moore, include_center, radius) c.entries with
  | some nb => (nb, c)
  | none =>
      let nb := compute_neighborhood g pos moore include_center radius
      (nb, ⟨c.entries ++ [((pos, moore, include_center, radius), nb)]⟩)

/-- The mutable state of a grid: the per-cell occupancy lists (`_grid`,
here a total map on coordinates; the placement protocol only touches
canonical in-bounds coordinates), the empty-cell set (`_empties`), and the
agents' `pos` back-reference fields. -/
structure GridState where
  topo : GridTopo
  grid : Coordinate → List AgentId
  empties : Finset Coordinate
  agent_pos : AgentId → Option Coordinate

/-- The result of a mutating operation: the state at return (or at the
moment of the raise) together with the raised error, if any. -/
abbrev OpResult := GridState × Option GridError

/-- `MultiGrid.is_cell_empty`: membership of `pos` in `_empties`
(it reads the empty-cell tracker, not the cell contents). -/
def is_cell_empty (st : GridState) (pos : Coordinate) : Bool :=
  decide (pos ∈ st.empties)

/-- The sorted `empties` property: `sorted(self._empties)`. -/
def empties_sorted (st : GridState) : List Coordinate :=
  Finset.sort cle st.empties

namespace MultiGrid

/-- `MultiGrid.place_agent`: append the agent to the cell, discard the
coordinate from `_empties`, set the agent's `pos` field.  Always succeeds. -/
def place_agent (st : GridState) (a : AgentId) (pos : Coordinate) : GridState :=
  { st with
    grid := Function.update st.grid pos (st.grid pos ++ [a])
    empties := st.empties.erase pos
    agent_pos := Function.update st.agent_pos a (some pos) }

/-- `MultiGrid.__setitem__` (`grid[pos] = agent`): append the agent to the
cell and nothing else. -/
def setitem (st : GridState) (pos : Coordinate) (a : AgentId) : GridState :=
  { st with grid := Function.update st.grid pos (st.grid pos ++ [a]) }

/-- `MultiGrid.remove_agent`: unpack the agent's `pos` field (raising when
it is `None`), remove the first occurrence of the agent from that cell's
list (raising `ValueError` when absent), add the coordinate to `_empties`
when the cell became empty, and clear the agent's `pos` field. -/
def remove_agent (st : GridState) (a : AgentId) : OpResult :=
  match st.agent_pos a with
  | none => (st, some .notPlaced)
  | some p =>
      let content := st.grid p
      if a ∈ content then
        let content' := content.erase a
        ({ st with
           grid := Function.update st.grid p content'
           empties := if content' = [] then insert p st.empties else st.empties
           agent_pos := Function.update st.agent_pos a none }, none)
      else (st, some .valueError)

end MultiGrid

namespace SingleGrid

/-- `SingleGrid.place_agent`: raise `CellOccupied` when the cell is not
empty (per the empty-cell tracker), otherwise fall through to
`MultiGrid.place_agent`. -/
def place_agent (st : GridState) (a : AgentId) (pos : Coordinate) : OpResult :=
  if is_cell_empty st pos = false then (st, some .cellOccupied)
  else (MultiGrid.place_agent st a pos, none)

end SingleGrid

namespace Grid

/-- `Grid.place_agent` (the evicting policy): when the cell is not empty,
clear the cell's list and add the coordinate back to `_empties`, then fall
through to `SingleGrid.place_agent`.  Note that the evicted occupant's
`pos` field is not touched. -/
def place_agent (st : GridState) (a : AgentId) (pos : Coordinate) : OpResult :=
  if is_cell_empty st pos = false then
    SingleGrid.place_agent
      { st with
        grid := Function.update st.grid pos []
        empties := insert pos st.empties } a pos
  else SingleGrid.place_agent st a pos

end Grid

/-- The three occupancy policies: the class (`MultiGrid`, `SingleGrid` or
`Grid`) whose `place_agent` dynamic dispatch selects. -/
inductive Policy where
  | multi
  | single
  | evict
deriving DecidableEq, Repr

/-- `self.place_agent` under dynamic dispatch: the placement primitive of
the active policy's class. -/
def place_dispatch : Policy → GridState → AgentId → Coordinate → OpResult
  | .multi, st, a, pos => (MultiGrid.place_agent st a pos, none)
  | .single, st, a, pos => SingleGrid.place_agent st a pos
  | .evict, st, a, pos => Grid.place_agent st a pos

/-- `MultiGrid.move_agent` (inherited by all policies, dispatching to the
policy's `place_agent`): wrap the destination through `torus_adj` FIRST,
then `remove_agent`, then place at the wrapped position. -/
def move_agent (pol : Policy) (st : GridState) (a : AgentId) (pos : Coordinate) : OpResult :=
  match torus_adj st.topo pos with
  | .error e => (st, some e)
  | .ok p =>
      match MultiGrid.remove_agent st a with
      | (st', none) => place_dispatch pol st' a p
      | (st', some e) => (st', some e)

/-- `MultiGrid.move_to_empty` (inherited by all policies): raise `GridFull`
when `_empties` is empty, otherwise draw a cell from the sorted `empties`
property with the caller-supplied random choice function and `move_agent`
there.  The draw happens before the agent is removed. -/
def move_to_empty (pol : Policy) (pick : List Coordinate → Coordinate)
    (st : GridState) (a : AgentId) : OpResult :=
  if st.empties.card = 0 then (st, some .gridFull)
  else move_agent pol st a (pick (empties_sorted st))

/-- The `move_to_empty` that the spec's sentence describes, for comparison
with the code's `move_to_empty`: first remove the agent from its current
cell, then draw from the EmptySet as it stands after the removal, raising
`GridFull` exactly when the set is empty before the draw. -/
def move_to_empty_spec (pol : Policy) (pick : List Coordinate → Coordinate)
    (st : GridState) (a : AgentId) : OpResult :=
  match MultiGrid.remove_agent st a with
  | (st', none) =>
      if st'.empties.card = 0 then (st', some .gridFull)
      else place_dispatch pol st' a (pick (empties_sorted st'))
  | (st', some e) => (st', some e)

/-- The argument of `position_agent`: explicit coordinates, or a request
for a random empty cell (`x == "random" or y == "random"`). -/
inductive PosArg where
  | random
  | xy (x y : Int)

/-- `SingleGrid.position_agent` (inherited by the evicting `Grid`): on a
random request, raise `GridFull` when `_empties` is empty and otherwise
draw from the sorted `empties`; then set the agent's `pos` field and call
the policy's `place_agent`. -/
def position_agent (pol : Policy) (pick : List Coordinate → Coordinate)
    (st : GridState) (a : AgentId) : PosArg → OpResult
  | .random =>
      if st.empties.card = 0 then (st, some .gridFull)
      else
        let coords := pick (empties_sorted st)
        place_dispatch pol
          { st with agent_pos := Function.update st.agent_pos a (some coords) } a coords
  | .xy x y =>
      place_dispatch pol
        { st with agent_pos := Function.update st.agent_pos a (some (x, y)) } a (x, y)

/-- The empty-cell tracker invariant (spec §3, invariant 1): an in-bounds
coordinate is in `_empties` iff its cell holds zero agents. -/
def EmptiesInv (st : GridState) : Prop :=
  ∀ p ∈ all_cells st.topo, (p ∈ st.empties ↔ st.grid p = [])

instance (st : GridState) : Decidable (EmptiesInv st) := by
  unfold EmptiesInv; infer_instance

/-! ## Concrete states used by witnesses and counterexamples -/

/-- A bounded (non-torus) 2×2 topology. -/
def topo2 : GridTopo := ⟨2, 2, false⟩

/-- Agent `0` alone at `(0, 0)` on a bounded 2×2 grid; the other three
cells are empty. -/
def st0 : GridState :=
  { topo := topo2
    grid := fun p => if p = ((0 : Int), (0 : Int)) then [0] else []
    empties := {(0, 1), (1, 0), (1, 1)}
    agent_pos := fun a => if a = 0 then some (0, 0) else none }

/-- Agent `0` alone at `(0, 0)` on a bounded 1×1 grid; no cell is empty. -/
def st1 : GridState :=
  { topo := ⟨1, 1, false⟩
    grid := fun p => if p = ((0 : Int), (0 : Int)) then [0] else []
    empties := ∅
    agent_pos := fun a => if a = 0 then some (0, 0) else none }

/-! ## Helper lemmas shared between claims -/

/-- The evicting `Grid.place_agent` always succeeds: after clearing an
occupied target cell the coordinate is back in `_empties`, so the
inherited occupancy check passes. -/
theorem evict_place_snd_eq_none (st : GridState) (a : AgentId) (pos : Coordinate) :
    (Grid.place_agent st a pos).2 = none := by
  cases hc : is_cell_empty st pos with
  | false =>
      have hnm : pos ∉ st.empties := by simpa [is_cell_empty] using hc
      simp [Grid.place_agent, SingleGrid.place_agent, is_cell_empty, hnm]
  | true =>
      simp [Grid.place_agent, hc, SingleGrid.place_agent]

/-- `torus_adj` can only raise `OutOfBounds`. -/
theorem torus_adj_error_eq {g : GridTopo} {p : Coordinate} {e : GridError}
    (h : torus_adj g p = .error e) : e = .outOfBounds := by
  unfold torus_adj at h
  split at h
  · exact absurd h (by simp)
  · split at h
    · simpa using h.symm
    · exact absurd h (by simp)

/-- `remove_agent` can only raise `NotPlaced` or `ValueError`. -/
theorem remove_agent_error_cases {st : GridState} {a : AgentId} {e : GridError}
    (h : (MultiGrid.remove_agent st a).2 = some e) :
    e = .notPlaced ∨ e = .valueError := by
  unfold MultiGrid.remove_agent at h
  rcases hp : st.agent_pos a with _ | p
  · rw [hp] at h; left; simpa using h.symm
  · rw [hp] at h
    by_cases hm : a ∈ st.grid p
    · simp [hm] at h
    · right; simp [hm] at h; exact h.symm

/-- The empty-cell set only grows across `remove_agent`. -/
theorem remove_agent_empties_superset (st : GridState) (a : AgentId) :
    st.empties ⊆ ((MultiGrid.remove_agent st a).1).empties := by
  unfold MultiGrid.remove_agent
  rcases hp : st.agent_pos a with _ | p
  · simp
  · by_cases hm : a ∈ st.grid p
    · simp only [hm, if_true]
      split
      · exact Finset.subset_insert _ _
      · exact Finset.Subset.refl _
    · simp [hm]

/-- `move_agent` never raises `GridFull`, under any policy. -/
theorem move_agent_snd_ne_gridFull (pol : Policy) (st : GridState) (a : AgentId)
    (pos : Coordinate) : (move_agent pol st a pos).2 ≠ some GridError.gridFull := by
  unfold move_agent
  rcases ht : torus_adj st.topo pos with e | p
  · intro hcon
    simp only at hcon
    cases (congrArg Option.some (torus_adj_error_eq ht)).symm.trans hcon
  · rcases hr : MultiGrid.remove_agent st a with ⟨st', _ | e⟩
    · cases pol with
      | multi => simp [place_dispatch]
      | single =>
          simp only [place_dispatch, SingleGrid.place_agent]
          split <;> simp
      | evict =>
          intro hcon
          simp only [place_dispatch] at hcon
          rw [evict_place_snd_eq_none st' a p] at hcon
          exact Option.noConfusion hcon
    · intro hcon
      simp only at hcon
      have : (MultiGrid.remove_agent st a).2 = some GridError.gridFull := by
        rw [hr]; exact congrArg Prod.snd (congrArg (Prod.mk st') hcon) ▸ rfl
      rcases remove_agent_error_cases this with h | h <;> cases h

/-- `MultiGrid.place_agent` preserves invariant 1 (EmptySet ↔ empty cell). -/
theorem place_multi_empties_inv (st : GridState) (a : AgentId) (pos : Coordinate)
    (hinv : EmptiesInv st) : EmptiesInv (MultiGrid.place_agent st a pos) := by
  intro p hp
  simp only [MultiGrid.place_agent] at hp ⊢
  by_cases hqp : p = pos
  · subst hqp
    simp
  · simp only [Function.update_noteq hqp, Finset.mem_erase, ne_eq, hqp,
      not_false_iff, true_and]
    exact hinv p hp

/-- `SingleGrid.place_agent` preserves invariant 1 on success. -/
theorem place_single_empties_inv (st : GridState) (a : AgentId) (pos : Coordinate)
    (hinv : EmptiesInv st) (h : (SingleGrid.place_agent st a pos).2 = none) :
    EmptiesInv (SingleGrid.place_agent st a pos).1 := by
  by_cases hc : is_cell_empty st pos = false
  · simp [SingleGrid.place_agent, hc] at h
  · simp only [SingleGrid.place_agent, hc, if_false]
    exact place_multi_empties_inv st a pos hinv

/-- The evicting `Grid.place_agent` preserves invariant 1. -/
theorem place_evict_empties_inv (st : GridState) (a : AgentId) (pos : Coordinate)
    (hinv : EmptiesInv st) : EmptiesInv (Grid.place_agent st a pos).1 := by
  by_cases hc : is_cell_empty st pos = false
  · have hnm : pos ∉ st.empties := by simpa [is_cell_empty] using hc
    have hinter : EmptiesInv
        { st with grid := Function.update st.grid pos []
                  empties := insert pos st.empties } := by
      intro p hp
      by_cases hqp : p = pos
      · subst hqp; simp
      · simp only [Function.update_noteq hqp, Finset.mem_insert, hqp, false_or]
        exact hinv p hp
    have heq : Grid.place_agent st a pos =
        (MultiGrid.place_agent
          { st with grid := Function.update st.grid pos []
                    empties := insert pos st.empties } a pos, none) := by
      simp [Grid.place_agent, SingleGrid.place_agent, is_cell_empty, hnm]
    rw [heq]
    exact place_multi_empties_inv _ a pos hinter
  · have hm : pos ∈ st.empties := by
      simp only [is_cell_empty] at hc
      simpa using hc
    have heq : Grid.place_agent st a pos = (MultiGrid.place_agent st a pos, none) := by
      simp [Grid.place_agent, SingleGrid.place_agent, is_cell_empty, hm]
    rw [heq]
    exact place_multi_empties_inv st a pos hinv

/-- Policy-dispatched placement preserves invariant 1 on success. -/
theorem place_dispatch_empties_inv (pol : Policy) (st : GridState) (a : AgentId)
    (pos : Coordinate) (hinv : EmptiesInv st)
    (h : (place_dispatch pol st a pos).2 = none) :
    EmptiesInv (place_dispatch pol st a pos).1 := by
  cases pol with
  | multi => exact place_multi_empties_inv st a pos hinv
  | single => exact place_single_empties_inv st a pos hinv h
  | evict => exact place_evict_empties_inv st a pos hinv

/-- `remove_agent` preserves invariant 1 (also on failure, where the state
is returned unchanged). -/
theorem remove_agent_empties_inv (st : GridState) (a : AgentId)
    (hinv : EmptiesInv st) : EmptiesInv (MultiGrid.remove_agent st a).1 := by
  unfold MultiGrid.remove_agent
  rcases hp : st.agent_pos a with _ | p
  · exact hinv
  · by_cases hm : a ∈ st.grid p
    · simp only [hm, if_true]
      intro q hq
      by_cases hqp : q = p
      · subst hqp
        by_cases hnil : (st.grid q).erase a = []
        · simp [hnil]
        · have hne : st.grid q ≠ [] := by
            intro h0
            rw [h0] at hm
            exact absurd hm (List.not_mem_nil a)
          have hqe : q ∉ st.empties := fun hmem => hne ((hinv q hq).mp hmem)
          simp [hnil, hqe]
      · by_cases hnil : (st.grid p).erase a = []
        · simp only [hnil, if_true, Function.update_noteq hqp, Finset.mem_insert,
            hqp, false_or]
          exact hinv q hq
        · simp only [hnil, if_false, Function.update_noteq hqp]
          exact hinv q hq
    · simp only [hm, if_false]
      exact hinv

/-- `move_agent` preserves invariant 1 on success. -/
theorem move_agent_empties_inv (pol : Policy) (st : GridState) (a : AgentId)
    (pos : Coordinate) (hinv : EmptiesInv st)
    (h : (move_agent pol st a pos).2 = none) :
    EmptiesInv (move_agent pol st a pos).1 := by
  unfold move_agent at h ⊢
  rcases ht : torus_adj st.topo pos with e | p
  · rw [ht] at h
    dsimp only at h
    exact absurd h (by simp)
  · rw [ht] at h
    dsimp only at h ⊢
    rcases hr : MultiGrid.remove_agent st a with ⟨st', err⟩
    rw [hr] at h
    have hinv' : EmptiesInv st' := by
      have h2 := remove_agent_empties_inv st a hinv
      rw [hr] at h2
      exact h2
    cases err with
    | none => exact place_dispatch_empties_inv pol st' a p hinv' h
    | some e => exact hinv'

theorem mem_int_range {r : Nat} {i : Int} :
    i ∈ int_range r ↔ -(r : Int) ≤ i ∧ i ≤ (r : Int) := by
  unfold int_range
  rw [List.mem_map]
  constructor
  · rintro ⟨a, ha, rfl⟩
    rw [List.mem_range] at ha
    omega
  · intro h
    refine ⟨(i + r).toNat, ?_, ?_⟩
    · rw [List.mem_range]; omega
    · omega

theorem length_insert_sorted (c : Coordinate) (l : List Coordinate) :
    (insert_sorted c l).length = l.length + 1 := by
  induction l with
  | nil => rfl
  | cons d l ih =>
      unfold insert_sorted
      split
      · rfl
      · simp [ih]

theorem length_sort_coords (l : List Coordinate) :
    (sort_coords l).length = l.length := by
  unfold sort_coords
  induction l with
  | nil => rfl
  | cons c l ih => simp [List.foldr_cons, length_insert_sorted, ih]

/-- The length of a computed neighborhood is the number of distinct
candidates. -/
theorem length_compute_neighborhood (g : GridTopo) (pos : Coordinate)
    (m ic : Bool) (r : Nat) :
    (compute_neighborhood g pos m ic r).length =
      (neighborhood_cands g pos m ic r).toFinset.card := by
  unfold compute_neighborhood
  rw [length_sort_coords, List.card_toFinset]

theorem mem_offset_box {r : Nat} {d : Int × Int} :
    d ∈ offset_box r ↔ -(r : Int) ≤ d.1 ∧ d.1 ≤ r ∧ -(r : Int) ≤ d.2 ∧ d.2 ≤ r := by
  unfold offset_box
  simp only [Finset.mem_product, Finset.mem_Icc]
  tauto

theorem mem_neighborhood_cands {g : GridTopo} {pos : Coordinate} {m ic : Bool}
    {r : Nat} {c : Coordinate} :
    c ∈ neighborhood_cands g pos m ic r ↔
      ∃ d ∈ kept_offsets m ic r, wrap_cand g (pos.1 + d.1, pos.2 + d.2) = some c := by
  unfold neighborhood_cands kept_offsets
  simp only [List.mem_flatMap, List.mem_filterMap, mem_int_range, Finset.mem_filter]
  constructor
  · rintro ⟨dy, hdy, dx, hdx, h⟩
    by_cases hk : keep_offset m ic r (dx, dy)
    · rw [if_pos hk] at h
      exact ⟨(dx, dy), ⟨mem_offset_box.mpr ⟨hdx.1, hdx.2, hdy.1, hdy.2⟩, hk⟩, h⟩
    · rw [if_neg hk] at h
      exact Option.noConfusion h
  · rintro ⟨⟨dx, dy⟩, ⟨hbox, hk⟩, h⟩
    obtain ⟨h1, h2, h3, h4⟩ := mem_offset_box.mp hbox
    exact ⟨dy, ⟨h3, h4⟩, dx, ⟨h1, h2⟩, by rw [if_pos hk]; exact h⟩

/-- On a torus with positive dimensions, every candidate wraps to the
componentwise modulus. -/
theorem wrap_cand_torus {g : GridTopo} (ht : g.torus = true) (hw : 0 < g.width)
    (hh : 0 < g.height) (c : Coordinate) :
    wrap_cand g c = some (c.1 % g.width, c.2 % g.height) := by
  unfold wrap_cand
  rcases hob : out_of_bounds g c with _ | _
  · have hib : in_bounds g c := out_of_bounds_eq_false.mp hob
    obtain ⟨h1, h2, h3, h4⟩ := hib
    simp only [Bool.false_eq_true, if_false, Option.some.injEq]
    exact Prod.ext (Int.emod_eq_of_lt h1 h2).symm (Int.emod_eq_of_lt h3 h4).symm
  · simp [ht]

/-- On a bounded grid, a candidate is kept iff it is in bounds. -/
theorem wrap_cand_bounded {g : GridTopo} (ht : g.torus = false) (c : Coordinate) :
    wrap_cand g c = if in_bounds g c then some c else none := by
  unfold wrap_cand
  by_cases hib : in_bounds g c
  · have hob : ¬ out_of_bounds g c = true := by
      simp [out_of_bounds_eq_true, hib]
    rw [if_neg hob, if_pos hib]
  · have hob : out_of_bounds g c = true := out_of_bounds_eq_true.mpr hib
    rw [if_pos hob, if_pos ht, if_neg hib]

/-- Two integers within distance `< n` of each other and congruent mod `n`
are equal. -/
theorem emod_inj_of_close {n a b : Int} (hn : 0 < n) (h : a % n = b % n)
    (hab : |a - b| < n) : a = b := by
  have h0 : (a - b) % n = 0 := Int.emod_eq_emod_iff_emod_sub_eq_zero.mp h
  have hd : n ∣ (a - b) := Int.dvd_of_emod_eq_zero h0
  have hz : a - b = 0 := by
    rcases hd with ⟨k, hk⟩
    rw [hk] at hab ⊢
    rcases lt_trichotomy k 0 with hk0 | hk0 | hk0
    · have hk1 : k ≤ -1 := by omega
      nlinarith [neg_abs_le (n * k)]
    · simp [hk0]
    · have hk1 : 1 ≤ k := by omega
      nlinarith [le_abs_self (n * k)]
  omega

/-- On a torus the candidate set is the image of the kept offsets under
componentwise wrapped translation. -/
theorem cands_toFinset_torus (g : GridTopo) (pos : Coordinate) (m ic : Bool) (r : Nat)
    (ht : g.torus = true) (hw : 0 < g.width) (hh : 0 < g.height) :
    (neighborhood_cands g pos m ic r).toFinset =
      (kept_offsets m ic r).image
        (fun d : Int × Int => ((pos.1 + d.1) % g.width, (pos.2 + d.2) % g.height)) := by
  ext c
  rw [List.mem_toFinset, mem_neighborhood_cands, Finset.mem_image]
  constructor
  · rintro ⟨d, hd, h⟩
    rw [wrap_cand_torus ht hw hh] at h
    exact ⟨d, hd, (Option.some.injEq _ _).mp h⟩
  · rintro ⟨d, hd, rfl⟩
    exact ⟨d, hd, wrap_cand_torus ht hw hh _⟩

/-- On a bounded grid the candidate set is the image of the in-bounds kept
offsets under translation. -/
theorem cands_toFinset_bounded (g : GridTopo) (pos : Coordinate) (m ic : Bool) (r : Nat)
    (ht : g.torus = false) :
    (neighborhood_cands g pos m ic r).toFinset =
      ((kept_offsets m ic r).filter
        (fun d : Int × Int => in_bounds g (pos.1 + d.1, pos.2 + d.2))).image
        (fun d : Int × Int => (pos.1 + d.1, pos.2 + d.2)) := by
  ext c
  rw [List.mem_toFinset, mem_neighborhood_cands, Finset.mem_image]
  constructor
  · rintro ⟨d, hd, h⟩
    rw [wrap_cand_bounded ht] at h
    by_cases hib : in_bounds g (pos.1 + d.1, pos.2 + d.2)
    · rw [if_pos hib] at h
      exact ⟨d, Finset.mem_filter.mpr ⟨hd, hib⟩, (Option.some.injEq _ _).mp h⟩
    · rw [if_neg hib] at h
      exact Option.noConfusion h
  · rintro ⟨d, hd, rfl⟩
    obtain ⟨hd, hib⟩ := Finset.mem_filter.mp hd
    exact ⟨d, hd, by rw [wrap_cand_bounded ht, if_pos hib]⟩

/-- On a ≥3×≥3 torus, the radius-1 neighborhood size equals the number of
kept offsets (wrapped translation is injective on the radius-1 box). -/
theorem length_compute_torus_one (g : GridTopo) (pos : Coordinate) (m ic : Bool)
    (ht : g.torus = true) (hw : 3 ≤ g.width) (hh : 3 ≤ g.height) :
    (compute_neighborhood g pos m ic 1).length = (kept_offsets m ic 1).card := by
  rw [length_compute_neighborhood,
    cands_toFinset_torus g pos m ic 1 ht (by omega) (by omega)]
  apply Finset.card_image_of_injOn
  intro d hd d' hd' heq
  have hb := mem_offset_box.mp (Finset.mem_filter.mp hd).1
  have hb' := mem_offset_box.mp (Finset.mem_filter.mp hd').1
  obtain ⟨d1, d2⟩ := d
  obtain ⟨d1', d2'⟩ := d'
  simp only [Prod.mk.injEq] at heq ⊢
  obtain ⟨e1, e2⟩ := heq
  constructor
  · have := emod_inj_of_close (a := pos.1 + d1) (b := pos.1 + d1') (by omega) e1
      (by rw [abs_lt]; constructor <;> simp at hb hb' <;> omega)
    omega
  · have := emod_inj_of_close (a := pos.2 + d2) (b := pos.2 + d2') (by omega) e2
      (by rw [abs_lt]; constructor <;> simp at hb hb' <;> omega)
    omega

/-- On a bounded grid, the neighborhood size is the number of kept
offsets whose translate is in bounds. -/
theorem length_compute_bounded (g : GridTopo) (pos : Coordinate) (m ic : Bool) (r : Nat)
    (ht : g.torus = false) :
    (compute_neighborhood g pos m ic r).length =
      ((kept_offsets m ic r).filter
        (fun d : Int × Int => in_bounds g (pos.1 + d.1, pos.2 + d.2))).card := by
  rw [length_compute_neighborhood, cands_toFinset_bounded g pos m ic r ht]
  apply Finset.card_image_of_injOn
  intro d hd d' hd' heq
  obtain ⟨d1, d2⟩ := d
  obtain ⟨d1', d2'⟩ := d'
  simp only [Prod.mk.injEq] at heq ⊢
  omega

/-- A key absent from the front part of an association list is looked up
in the back part. -/
theorem lookup_append_of_none {α β : Type} [BEq α] {k : α} {l l' : List (α × β)}
    (h : List.lookup k l = none) : List.lookup k (l ++ l') = List.lookup k l' := by
  induction l with
  | nil => simp
  | cons e es ih =>
      obtain ⟨k', v⟩ := e
      cases hbeq : k == k' with
      | true => simp [List.lookup, hbeq] at h
      | false =>
          simp only [List.lookup, hbeq] at h
          simpa only [List.cons_append, List.lookup, hbeq] using ih h

/-- A successful association-list lookup is unaffected by appending
entries. -/
theorem lookup_append_of_some {α β : Type} [BEq α] {k : α} {v : β} {l l' : List (α × β)}
    (h : List.lookup k l = some v) : List.lookup k (l ++ l') = some v := by
  induction l with
  | nil => simp at h
  | cons e es ih =>
      obtain ⟨k', w⟩ := e
      cases hbeq : k == k' with
      | true => simpa only [List.cons_append, List.lookup, hbeq] using h
      | false =>
          simp only [List.lookup, hbeq] at h
          simpa only [List.cons_append, List.lookup, hbeq] using ih h

/-! ## Claim theorems -/

/-- C6: on a 5×5 torus grid, `get_neighborhood((0,0), moore=true,
include_center=false, radius=1)` (on the fresh, empty cache the grid is
constructed with) returns exactly the duplicate-free list
`[(0,1),(0,4),(1,0),(1,1),(1,4),(4,0),(4,1),(4,4)]`, sorted ascending by
`(x, y)`; the negative offsets wrap via mathematical modulo to canonical
coordinates. -/
theorem C6_torus_neighborhood_concrete :
    (get_neighborhood ⟨5, 5, true⟩ ⟨[]⟩ (0, 0) true false 1).1 =
      [(0, 1), (0, 4), (1, 0), (1, 1), (1, 4), (4, 0), (4, 1), (4, 4)] := by
  decide

/-- C3: after every successful public placement-protocol operation
(`place_agent` under each of the three occupancy policies via dynamic
dispatch, `remove_agent`, `move_agent`, `move_to_empty`,
`position_agent`), an in-bounds coordinate is in the EmptySet iff its
cell holds zero agents, provided the invariant held before the call.
(`position_agent` is defined on the two exclusive-policy classes in the
source and modelled here for any dispatch policy.) -/
theorem C3_empties_iff_empty_cell_preserved (pol : Policy) (st : GridState)
    (hinv : EmptiesInv st) :
    (∀ a pos, (place_dispatch pol st a pos).2 = none →
      EmptiesInv (place_dispatch pol st a pos).1) ∧
    (∀ a, (MultiGrid.remove_agent st a).2 = none →
      EmptiesInv (MultiGrid.remove_agent st a).1) ∧
    (∀ a pos, (move_agent pol st a pos).2 = none →
      EmptiesInv (move_agent pol st a pos).1) ∧
    (∀ pick a, (move_to_empty pol pick st a).2 = none →
      EmptiesInv (move_to_empty pol pick st a).1) ∧
    (∀ pick a arg, (position_agent pol pick st a arg).2 = none →
      EmptiesInv (position_agent pol pick st a arg).1) := by
  have hshift : ∀ f, EmptiesInv { st with agent_pos := f } := fun f p hp => hinv p hp
  refine ⟨fun a pos h => place_dispatch_empties_inv pol st a pos hinv h,
    fun a _ => remove_agent_empties_inv st a hinv,
    fun a pos h => move_agent_empties_inv pol st a pos hinv h, ?_, ?_⟩
  · intro pick a h
    unfold move_to_empty at h ⊢
    by_cases hc : st.empties.card = 0
    · simp [hc] at h
    · simp only [hc, if_false]
      exact move_agent_empties_inv pol st a _ hinv (by simpa [hc] using h)
  · intro pick a arg h
    cases arg with
    | random =>
        unfold position_agent at h ⊢
        by_cases hc : st.empties.card = 0
        · simp [hc] at h
        · simp only [hc, if_false] at h ⊢
          exact place_dispatch_empties_inv pol _ a _ (hshift _) h
    | xy x y =>
        unfold position_agent at h ⊢
        exact place_dispatch_empties_inv pol _ a _ (hshift _) h

/-- Witness for C3: placing agent `1` at `(0, 1)` of the 2×2 grid under
the multi-occupancy policy preserves invariant 1. -/
theorem C3_witness :
    EmptiesInv st0 ∧ EmptiesInv (place_dispatch Policy.multi st0 1 (0, 1)).1 :=
  ⟨by decide, (C3_empties_iff_empty_cell_preserved Policy.multi st0 (by decide)).1 1 (0, 1) rfl⟩

/-- C7: radius-1, include_center=false neighborhood sizes (queried on the
fresh cache the grid is constructed with): on every torus grid of size at
least 3×3 the Moore neighborhood of every position has exactly 8
coordinates, independent of position; on a non-torus grid it has 8
coordinates at an interior cell, 5 at a non-corner edge cell and 3 at a
corner (grid dimensions at least 2); the Von Neumann neighborhood has 4
coordinates on a ≥3×3 torus and 2 at a non-torus corner. -/
theorem C7_neighborhood_size_cases (g : GridTopo) (x y : Int) :
    (g.torus = true → 3 ≤ g.width → 3 ≤ g.height →
      (get_neighborhood g ⟨[]⟩ (x, y) true false 1).1.length = 8) ∧
    (g.torus = false → 1 ≤ x → x ≤ g.width - 2 → 1 ≤ y → y ≤ g.height - 2 →
      (get_neighborhood g ⟨[]⟩ (x, y) true false 1).1.length = 8) ∧
    (g.torus = false → 2 ≤ g.width → 2 ≤ g.height → in_bounds g (x, y) →
      (x = 0 ∨ x = g.width - 1 ∨ y = 0 ∨ y = g.height - 1) →
      ¬((x = 0 ∨ x = g.width - 1) ∧ (y = 0 ∨ y = g.height - 1)) →
      (get_neighborhood g ⟨[]⟩ (x, y) true false 1).1.length = 5) ∧
    (g.torus = false → 2 ≤ g.width → 2 ≤ g.height →
      (x = 0 ∨ x = g.width - 1) → (y = 0 ∨ y = g.height - 1) →
      (get_neighborhood g ⟨[]⟩ (x, y) true false 1).1.length = 3) ∧
    (g.torus = true → 3 ≤ g.width → 3 ≤ g.height →
      (get_neighborhood g ⟨[]⟩ (x, y) false false 1).1.length = 4) ∧
    (g.torus = false → 2 ≤ g.width → 2 ≤ g.height →
      (x = 0 ∨ x = g.width - 1) → (y = 0 ∨ y = g.height - 1) →
      (get_neighborhood g ⟨[]⟩ (x, y) false false 1).1.length = 2) := by
  have hfresh : ∀ m : Bool, (get_neighborhood g ⟨[]⟩ (x, y) m false 1).1 =
      compute_neighborhood g (x, y) m false 1 := fun m => rfl
  have hK8 : kept_offsets true false 1 =
      ({(-1, -1), (0, -1), (1, -1), (-1, 0), (1, 0), (-1, 1), (0, 1), (1, 1)} :
        Finset (Int × Int)) := by decide
  have hK4 : kept_offsets false false 1 =
      ({(0, -1), (-1, 0), (1, 0), (0, 1)} : Finset (Int × Int)) := by decide
  refine ⟨?_, ?_, ?_, ?_, ?_, ?_⟩
  · intro ht hw hh
    rw [hfresh, length_compute_torus_one g (x, y) true false ht hw hh]
    decide
  · intro ht hx1 hx2 hy1 hy2
    have hlb := length_compute_bounded g (x, y) true false 1 ht
    dsimp only at hlb
    rw [hfresh, hlb, Finset.filter_true_of_mem]
    · decide
    · intro d hd
      obtain ⟨hbox, -⟩ := Finset.mem_filter.mp hd
      obtain ⟨h1, h2, h3, h4⟩ := mem_offset_box.mp hbox
      obtain ⟨d1, d2⟩ := d
      simp only [in_bounds] at *
      omega
  · intro ht hw hh hib hbd hnc
    have hlb := length_compute_bounded g (x, y) true false 1 ht
    dsimp only at hlb
    rw [hfresh, hlb]
    obtain ⟨hx1, hx2, hy1, hy2⟩ := hib
    dsimp only at hx1 hx2 hy1 hy2
    rcases hbd with hx0 | hxw | hy0 | hyh
    · have hyne : ¬(y = 0 ∨ y = g.height - 1) := fun h => hnc ⟨Or.inl hx0, h⟩
      have hfil : (kept_offsets true false 1).filter
          (fun d : Int × Int => in_bounds g (x + d.1, y + d.2)) =
          ({(0, -1), (1, -1), (1, 0), (0, 1), (1, 1)} : Finset (Int × Int)) := by
        rw [hK8]
        ext ⟨d1, d2⟩
        simp only [Finset.mem_filter, Finset.mem_insert, Finset.mem_singleton,
          Prod.mk.injEq, in_bounds]
        omega
      rw [hfil]
      decide
    · have hyne : ¬(y = 0 ∨ y = g.height - 1) := fun h => hnc ⟨Or.inr hxw, h⟩
      have hfil : (kept_offsets true false 1).filter
          (fun d : Int × Int => in_bounds g (x + d.1, y + d.2)) =
          ({(-1, -1), (0, -1), (-1, 0), (-1, 1), (0, 1)} : Finset (Int × Int)) := by
        rw [hK8]
        ext ⟨d1, d2⟩
        simp only [Finset.mem_filter, Finset.mem_insert, Finset.mem_singleton,
          Prod.mk.injEq, in_bounds]
        omega
      rw [hfil]
      decide
    · have hxne : ¬(x = 0 ∨ x = g.width - 1) := fun h => hnc ⟨h, Or.inl hy0⟩
      have hfil : (kept_offsets true false 1).filter
          (fun d : Int × Int => in_bounds g (x + d.1, y + d.2)) =
          ({(-1, 0), (1, 0), (-1, 1), (0, 1), (1, 1)} : Finset (Int × Int)) := by
        rw [hK8]
        ext ⟨d1, d2⟩
        simp only [Finset.mem_filter, Finset.mem_insert, Finset.mem_singleton,
          Prod.mk.injEq, in_bounds]
        omega
      rw [hfil]
      decide
    · have hxne : ¬(x = 0 ∨ x = g.width - 1) := fun h => hnc ⟨h, Or.inr hyh⟩
      have hfil : (kept_offsets true false 1).filter
          (fun d : Int × Int => in_bounds g (x + d.1, y + d.2)) =
          ({(-1, -1), (0, -1), (1, -1), (-1, 0), (1, 0)} : Finset (Int × Int)) := by
        rw [hK8]
        ext ⟨d1, d2⟩
        simp only [Finset.mem_filter, Finset.mem_insert, Finset.mem_singleton,
          Prod.mk.injEq, in_bounds]
        omega
      rw [hfil]
      decide
  · intro ht hw hh hxc hyc
    have hlb := length_compute_bounded g (x, y) true false 1 ht
    dsimp only at hlb
    rw [hfresh, hlb]
    rcases hxc with hx0 | hxw <;> rcases hyc with hy0 | hyh
    · have hfil : (kept_offsets true false 1).filter
          (fun d : Int × Int => in_bounds g (x + d.1, y + d.2)) =
          ({(1, 0), (0, 1), (1, 1)} : Finset (Int × Int)) := by
        rw [hK8]
        ext ⟨d1, d2⟩
        simp only [Finset.mem_filter, Finset.mem_insert, Finset.mem_singleton,
          Prod.mk.injEq, in_bounds]
        omega
      rw [hfil]
      decide
    · have hfil : (kept_offsets true false 1).filter
          (fun d : Int × Int => in_bounds g (x + d.1, y + d.2)) =
          ({(0, -1), (1, -1), (1, 0)} : Finset (Int × Int)) := by
        rw [hK8]
        ext ⟨d1, d2⟩
        simp only [Finset.mem_filter, Finset.mem_insert, Finset.mem_singleton,
          Prod.mk.injEq, in_bounds]
        omega
      rw [hfil]
      decide
    · have hfil : (kept_offsets true false 1).filter
          (fun d : Int × Int => in_bounds g (x + d.1, y + d.2)) =
          ({(-1, 0), (-1, 1), (0, 1)} : Finset (Int × Int)) := by
        rw [hK8]
        ext ⟨d1, d2⟩
        simp only [Finset.mem_filter, Finset.mem_insert, Finset.mem_singleton,
          Prod.mk.injEq, in_bounds]
        omega
      rw [hfil]
      decide
    · have hfil : (kept_offsets true false 1).filter
          (fun d : Int × Int => in_bounds g (x + d.1, y + d.2)) =
          ({(-1, -1), (0, -1), (-1, 0)} : Finset (Int × Int)) := by
        rw [hK8]
        ext ⟨d1, d2⟩
        simp only [Finset.mem_filter, Finset.mem_insert, Finset.mem_singleton,
          Prod.mk.injEq, in_bounds]
        omega
      rw [hfil]
      decide
  · intro ht hw hh
    rw [hfresh, length_compute_torus_one g (x, y) false false ht hw hh]
    decide
  · intro ht hw hh hxc hyc
    have hlb := length_compute_bounded g (x, y) false false 1 ht
    dsimp only at hlb
    rw [hfresh, hlb]
    rcases hxc with hx0 | hxw <;> rcases hyc with hy0 | hyh
    · have hfil : (kept_offsets false false 1).filter
          (fun d : Int × Int => in_bounds g (x + d.1, y + d.2)) =
          ({(1, 0), (0, 1)} : Finset (Int × Int)) := by
        rw [hK4]
        ext ⟨d1, d2⟩
        simp only [Finset.mem_filter, Finset.mem_insert, Finset.mem_singleton,
          Prod.mk.injEq, in_bounds]
        omega
      rw [hfil]
      decide
    · have hfil : (kept_offsets false false 1).filter
          (fun d : Int × Int => in_bounds g (x + d.1, y + d.2)) =
          ({(0, -1), (1, 0)} : Finset (Int × Int)) := by
        rw [hK4]
        ext ⟨d1, d2⟩
        simp only [Finset.mem_filter, Finset.mem_insert, Finset.mem_singleton,
          Prod.mk.injEq, in_bounds]
        omega
      rw [hfil]
      decide
    · have hfil : (kept_offsets false false 1).filter
          (fun d : Int × Int => in_bounds g (x + d.1, y + d.2)) =
          ({(-1, 0), (0, 1)} : Finset (Int × Int)) := by
        rw [hK4]
        ext ⟨d1, d2⟩
        simp only [Finset.mem_filter, Finset.mem_insert, Finset.mem_singleton,
          Prod.mk.injEq, in_bounds]
        omega
      rw [hfil]
      decide
    · have hfil : (kept_offsets false false 1).filter
          (fun d : Int × Int => in_bounds g (x + d.1, y + d.2)) =
          ({(0, -1), (-1, 0)} : Finset (Int × Int)) := by
        rw [hK4]
        ext ⟨d1, d2⟩
        simp only [Finset.mem_filter, Finset.mem_insert, Finset.mem_singleton,
          Prod.mk.injEq, in_bounds]
        omega
      rw [hfil]
      decide

/-- Witness for C7: concrete instances of each of the six cases on 5×5
grids. -/
theorem C7_witness :
    (get_neighborhood ⟨5, 5, true⟩ ⟨[]⟩ (2, 3) true false 1).1.length = 8 ∧
    (get_neighborhood ⟨5, 5, false⟩ ⟨[]⟩ (2, 2) true false 1).1.length = 8 ∧
    (get_neighborhood ⟨5, 5, false⟩ ⟨[]⟩ (0, 2) true false 1).1.length = 5 ∧
    (get_neighborhood ⟨5, 5, false⟩ ⟨[]⟩ (0, 0) true false 1).1.length = 3 ∧
    (get_neighborhood ⟨5, 5, true⟩ ⟨[]⟩ (4, 4) false false 1).1.length = 4 ∧
    (get_neighborhood ⟨5, 5, false⟩ ⟨[]⟩ (4, 0) false false 1).1.length = 2 :=
  ⟨(C7_neighborhood_size_cases ⟨5, 5, true⟩ 2 3).1 rfl (by decide) (by decide),
    (C7_neighborhood_size_cases ⟨5, 5, false⟩ 2 2).2.1 rfl (by decide) (by decide)
      (by decide) (by decide),
    (C7_neighborhood_size_cases ⟨5, 5, false⟩ 0 2).2.2.1 rfl (by decide) (by decide)
      (by decide) (by decide) (by decide),
    (C7_neighborhood_size_cases ⟨5, 5, false⟩ 0 0).2.2.2.1 rfl (by decide) (by decide)
      (by decide) (by decide),
    (C7_neighborhood_size_cases ⟨5, 5, true⟩ 4 4).2.2.2.2.1 rfl (by decide) (by decide),
    (C7_neighborhood_size_cases ⟨5, 5, false⟩ 4 0).2.2.2.2.2 rfl (by decide) (by decide)
      (by decide) (by decide)⟩

/-- C8: for an agent `a` in no cell and an in-bounds position `pos`,
`place_agent(a, pos)` (multi-occupancy, the policy the cited code
implements) followed by `remove_agent(a)` succeeds and restores the
EmptySet and the contents of every cell to exactly their prior values —
including when `pos` was already occupied. -/
theorem C8_place_then_remove_restores (st : GridState) (a : AgentId) (pos : Coordinate)
    (hin : in_bounds st.topo pos) (hinv : EmptiesInv st)
    (hnot : ∀ q ∈ all_cells st.topo, a ∉ st.grid q) :
    (MultiGrid.remove_agent (MultiGrid.place_agent st a pos) a).2 = none ∧
    (∀ q, (MultiGrid.remove_agent (MultiGrid.place_agent st a pos) a).1.grid q =
      st.grid q) ∧
    (MultiGrid.remove_agent (MultiGrid.place_agent st a pos) a).1.empties =
      st.empties := by
  have hanot : a ∉ st.grid pos := hnot pos (mem_all_cells.mpr hin)
  have hpos : (MultiGrid.place_agent st a pos).agent_pos a = some pos := by
    simp [MultiGrid.place_agent]
  have hcontent : (MultiGrid.place_agent st a pos).grid pos = st.grid pos ++ [a] := by
    simp [MultiGrid.place_agent]
  have hmem : a ∈ (MultiGrid.place_agent st a pos).grid pos := by
    rw [hcontent]
    exact List.mem_append_right _ (List.mem_singleton_self a)
  have herase : ((MultiGrid.place_agent st a pos).grid pos).erase a = st.grid pos := by
    rw [hcontent, List.erase_append_right _ hanot, List.erase_cons_head, List.append_nil]
  have hrm : MultiGrid.remove_agent (MultiGrid.place_agent st a pos) a =
      ({ MultiGrid.place_agent st a pos with
         grid := Function.update (MultiGrid.place_agent st a pos).grid pos (st.grid pos)
         empties := if st.grid pos = []
           then insert pos (MultiGrid.place_agent st a pos).empties
           else (MultiGrid.place_agent st a pos).empties
         agent_pos := Function.update (MultiGrid.place_agent st a pos).agent_pos a none },
        none) := by
    unfold MultiGrid.remove_agent
    rw [hpos]
    dsimp only
    rw [if_pos hmem, herase]
  rw [hrm]
  refine ⟨rfl, ?_, ?_⟩
  · intro q
    by_cases hqp : q = pos
    · subst hqp; simp
    · simp [MultiGrid.place_agent, Function.update_noteq hqp]
  · by_cases hnil : st.grid pos = []
    · have hm : pos ∈ st.empties := (hinv pos (mem_all_cells.mpr hin)).mpr hnil
      simp only [hnil, if_true, MultiGrid.place_agent]
      exact Finset.insert_erase hm
    · have hm : pos ∉ st.empties := fun hc => hnil ((hinv pos (mem_all_cells.mpr hin)).mp hc)
      simp only [hnil, if_false, MultiGrid.place_agent]
      exact Finset.erase_eq_of_not_mem hm

/-- Witness for C8: placing agent `1` onto the already occupied cell
`(0, 0)` of the 2×2 grid and removing it again restores the state. -/
theorem C8_witness :
    in_bounds st0.topo (0, 0) ∧ EmptiesInv st0 ∧
      (∀ q ∈ all_cells st0.topo, (1 : AgentId) ∉ st0.grid q) ∧
      (MultiGrid.remove_agent (MultiGrid.place_agent st0 1 (0, 0)) 1).2 = none ∧
      (MultiGrid.remove_agent (MultiGrid.place_agent st0 1 (0, 0)) 1).1.empties =
        st0.empties :=
  ⟨by decide, by decide, by decide,
    (C8_place_then_remove_restores st0 1 (0, 0) (by decide) (by decide) (by decide)).1,
    (C8_place_then_remove_restores st0 1 (0, 0) (by decide) (by decide) (by decide)).2.2⟩

/-- C4: on a non-torus grid, `move_agent` to an out-of-bounds destination
fails with `OutOfBounds` before any mutation: the returned state is
exactly the input state (every cell, the empty set, and the agent's
position field are unchanged), under every occupancy policy. -/
theorem C4_move_agent_out_of_bounds_no_mutation (pol : Policy) (st : GridState)
    (a : AgentId) (pos : Coordinate) (ht : st.topo.torus = false)
    (hob : ¬ in_bounds st.topo pos) :
    move_agent pol st a pos = (st, some GridError.outOfBounds) := by
  have h : out_of_bounds st.topo pos = true := out_of_bounds_eq_true.mpr hob
  simp [move_agent, torus_adj, h, ht]

/-- Witness for C4: moving agent `0` to `(5, 5)` on the bounded 2×2 grid
fails with `OutOfBounds` and leaves the state untouched. -/
theorem C4_witness :
    st0.topo.torus = false ∧ ¬ in_bounds st0.topo (5, 5) ∧
      move_agent Policy.multi st0 0 (5, 5) = (st0, some GridError.outOfBounds) :=
  ⟨rfl, by decide,
    C4_move_agent_out_of_bounds_no_mutation Policy.multi st0 0 (5, 5) rfl (by decide)⟩

/-- C5: under the exclusive single-occupancy policy, `place_agent`
targeting a (in-bounds) non-empty cell fails with `CellOccupied`, and the
returned state is exactly the input state, so the target cell's contents
and the empty set are unchanged.  (The occupancy check reads the
empty-cell tracker, so the cell's non-emptiness is transported through
invariant 1.) -/
theorem C5_single_place_occupied_fails_unchanged (st : GridState) (a : AgentId)
    (pos : Coordinate) (hin : in_bounds st.topo pos) (hinv : EmptiesInv st)
    (hocc : st.grid pos ≠ []) :
    SingleGrid.place_agent st a pos = (st, some GridError.cellOccupied) := by
  have hne : pos ∉ st.empties := fun h =>
    hocc ((hinv pos (mem_all_cells.mpr hin)).mp h)
  simp [SingleGrid.place_agent, is_cell_empty, hne]

/-- Witness for C5: placing agent `1` onto the occupied cell `(0, 0)` of
the 2×2 grid fails with `CellOccupied` and changes nothing. -/
theorem C5_witness :
    in_bounds st0.topo (0, 0) ∧ EmptiesInv st0 ∧ st0.grid (0, 0) ≠ [] ∧
      SingleGrid.place_agent st0 1 (0, 0) = (st0, some GridError.cellOccupied) :=
  ⟨by decide, by decide, by decide,
    C5_single_place_occupied_fails_unchanged st0 1 (0, 0) (by decide) (by decide) (by decide)⟩

/-- C9: `get_neighborhood` is cache-consistent: (a) an immediately
repeated call with identical arguments returns the value-identical result
and leaves the cache unchanged; (b) a cache miss computes the
neighborhood and inserts exactly one entry — the key mapped to the
computed list — before returning it; (c) every existing cache entry is
preserved unmodified by any call (entries, once created, are never
mutated). -/
theorem C9_neighborhood_cache_consistent (g : GridTopo) (c : NbCache) (pos : Coordinate)
    (m ic : Bool) (r : Nat) :
    (get_neighborhood g (get_neighborhood g c pos m ic r).2 pos m ic r =
      get_neighborhood g c pos m ic r) ∧
    (List.lookup (pos, m, ic, r) c.entries = none →
      (get_neighborhood g c pos m ic r).2.entries =
        c.entries ++ [((pos, m, ic, r), compute_neighborhood g pos m ic r)] ∧
      (get_neighborhood g c pos m ic r).1 = compute_neighborhood g pos m ic r) ∧
    (∀ k v, List.lookup k c.entries = some v →
      List.lookup k (get_neighborhood g c pos m ic r).2.entries = some v) := by
  rcases hl : List.lookup (pos, m, ic, r) c.entries with _ | nb
  · have he : get_neighborhood g c pos m ic r =
        (compute_neighborhood g pos m ic r,
          ⟨c.entries ++ [((pos, m, ic, r), compute_neighborhood g pos m ic r)]⟩) := by
      unfold get_neighborhood
      rw [hl]
    have hl₁ : List.lookup (pos, m, ic, r)
        (c.entries ++ [((pos, m, ic, r), compute_neighborhood g pos m ic r)]) =
          some (compute_neighborhood g pos m ic r) := by
      rw [lookup_append_of_none hl]
      simp [List.lookup]
    refine ⟨?_, fun _ => ⟨by rw [he], by rw [he]⟩, ?_⟩
    · rw [he]
      unfold get_neighborhood
      rw [hl₁]
    · intro k v hk
      rw [he]
      exact lookup_append_of_some hk
  · have he : get_neighborhood g c pos m ic r = (nb, c) := by
      unfold get_neighborhood
      rw [hl]
    refine ⟨?_, ?_, ?_⟩
    · rw [he]
      unfold get_neighborhood
      rw [hl]
    · intro hn
      exact Option.noConfusion hn
    · intro k v hk
      rw [he]
      exact hk

/-- Witness for C9: the first query on the fresh empty cache of a 5×5
torus grid misses and inserts exactly the computed entry. -/
theorem C9_witness :
    List.lookup (((0 : Int), (0 : Int)), true, false, 1)
        (NbCache.entries ⟨[]⟩) = none ∧
      (get_neighborhood ⟨5, 5, true⟩ ⟨[]⟩ (0, 0) true false 1).2.entries =
        [] ++ [((((0 : Int), (0 : Int)), true, false, 1),
          compute_neighborhood ⟨5, 5, true⟩ (0, 0) true false 1)] :=
  ⟨rfl,
    ((C9_neighborhood_cache_consistent ⟨5, 5, true⟩ ⟨[]⟩ (0, 0) true false 1).2.1 rfl).1⟩

/-- C10: item assignment `grid[pos] = agent` (`__setitem__`) appends the
agent to the cell at `pos` and changes nothing else: the empty set and
every agent's position field are untouched and every other cell is
unchanged; hence after assigning into a cell the empty-cell tracker still
reports, is_cell_empty true for the now-occupied coordinate whenever it
was empty before. -/
theorem C10_setitem_appends_only (st : GridState) (pos : Coordinate) (a : AgentId) :
    (MultiGrid.setitem st pos a).empties = st.empties ∧
    (MultiGrid.setitem st pos a).agent_pos = st.agent_pos ∧
    (MultiGrid.setitem st pos a).grid pos = st.grid pos ++ [a] ∧
    (∀ q, q ≠ pos → (MultiGrid.setitem st pos a).grid q = st.grid q) ∧
    (pos ∈ st.empties →
      is_cell_empty (MultiGrid.setitem st pos a) pos = true ∧
        (MultiGrid.setitem st pos a).grid pos ≠ []) := by
  refine ⟨rfl, rfl, ?_, ?_, ?_⟩
  · simp [MultiGrid.setitem]
  · intro q hq
    simp [MultiGrid.setitem, Function.update_noteq hq]
  · intro hmem
    refine ⟨by simp [MultiGrid.setitem, is_cell_empty, hmem], ?_⟩
    simp [MultiGrid.setitem]

/-- C1 counterexample: on the 2×2 grid with agent `0` (A) alone at
`(0, 0)`, evicting-placing agent `1` (B) there succeeds, leaves B alone in
the cell and A in no cell — but A's position field is NOT cleared to
unplaced; it still records `(0, 0)`.  This refutes the claim's "A's
position field is cleared to unplaced". -/
theorem C1_counterexample :
    (Grid.place_agent st0 1 (0, 0)).2 = none ∧
    (Grid.place_agent st0 1 (0, 0)).1.grid (0, 0) = [1] ∧
    (∀ q ∈ all_cells st0.topo, (0 : AgentId) ∉ (Grid.place_agent st0 1 (0, 0)).1.grid q) ∧
    (Grid.place_agent st0 1 (0, 0)).1.agent_pos 0 = some (0, 0) ∧
    (Grid.place_agent st0 1 (0, 0)).1.agent_pos 0 ≠ none := by
  decide

/-- C1 (amended): under the evicting occupancy policy, placing agent B at
a coordinate whose cell holds a different agent A first clears the cell
(so A, which resided only there, is absent from every cell, and the
coordinate momentarily rejoins the EmptySet) before B is placed;
afterwards B occupies the cell alone, the coordinate is not in the
EmptySet, and the placement always succeeds — but A's position field is
NOT cleared: it still records the coordinate it was evicted from. -/
theorem C1_amended_evicting_place (st : GridState) (a b : AgentId) (pos : Coordinate)
    (hin : in_bounds st.topo pos) (hinv : EmptiesInv st) (hcell : st.grid pos = [a])
    (hab : a ≠ b) (honly : ∀ q ∈ all_cells st.topo, q ≠ pos → a ∉ st.grid q) :
    (∀ st' c q, (Grid.place_agent st' c q).2 = none) ∧
    (Grid.place_agent st b pos).1.grid pos = [b] ∧
    (∀ q ∈ all_cells st.topo, a ∉ (Grid.place_agent st b pos).1.grid q) ∧
    (Grid.place_agent st b pos).1.agent_pos b = some pos ∧
    (Grid.place_agent st b pos).1.agent_pos a = st.agent_pos a ∧
    pos ∉ (Grid.place_agent st b pos).1.empties := by
  have hnm : pos ∉ st.empties := fun h => by
    have := (hinv pos (mem_all_cells.mpr hin)).mp h
    rw [hcell] at this
    exact List.noConfusion this
  have hc : is_cell_empty st pos = false := by simp [is_cell_empty, hnm]
  have heq : Grid.place_agent st b pos =
      (MultiGrid.place_agent
        { st with grid := Function.update st.grid pos []
                  empties := insert pos st.empties } b pos, none) := by
    simp [Grid.place_agent, SingleGrid.place_agent, is_cell_empty, hnm]
  refine ⟨evict_place_snd_eq_none, ?_, ?_, ?_, ?_, ?_⟩
  · rw [heq]; simp [MultiGrid.place_agent]
  · intro q hq
    rw [heq]
    by_cases hqp : q = pos
    · subst hqp
      simpa [MultiGrid.place_agent] using hab
    · simp [MultiGrid.place_agent, Function.update_noteq hqp]
      exact honly q hq hqp
  · rw [heq]; simp [MultiGrid.place_agent]
  · rw [heq]; simp [MultiGrid.place_agent, Function.update_noteq hab]
  · rw [heq]; simp [MultiGrid.place_agent]

/-- Witness for C1 (amended): the eviction scenario on the 2×2 grid. -/
theorem C1_witness :
    in_bounds st0.topo (0, 0) ∧ EmptiesInv st0 ∧ st0.grid (0, 0) = [0] ∧
      (0 : AgentId) ≠ 1 ∧
      (Grid.place_agent st0 1 (0, 0)).1.grid (0, 0) = [1] ∧
      (Grid.place_agent st0 1 (0, 0)).1.agent_pos 0 = st0.agent_pos 0 :=
  ⟨by decide, by decide, by decide, by decide,
    (C1_amended_evicting_place st0 0 1 (0, 0) (by decide) (by decide) (by decide)
      (by decide) (by decide)).2.1,
    (C1_amended_evicting_place st0 0 1 (0, 0) (by decide) (by decide) (by decide)
      (by decide) (by decide)).2.2.2.2.1⟩

/-- C2 counterexample: on the full 1×1 grid holding only agent `0`, the
code's `move_to_empty` raises `GridFull` (the EmptySet is consulted before
the agent's removal), whereas the claim's description — remove first, then
draw from the post-removal EmptySet, failing only if that set is empty
before the draw — succeeds and re-places the agent at its own vacated
cell. -/
theorem C2_counterexample :
    move_to_empty Policy.multi (fun l => l.headD (0, 0)) st1 0 =
      (st1, some GridError.gridFull) ∧
    (move_to_empty_spec Policy.multi (fun l => l.headD (0, 0)) st1 0).2 = none ∧
    (move_to_empty_spec Policy.multi (fun l => l.headD (0, 0)) st1 0).1.agent_pos 0 =
      some (0, 0) := by
  refine ⟨rfl, ?_, ?_⟩ <;>
    simp [move_to_empty_spec, MultiGrid.remove_agent, st1, empties_sorted,
      Finset.sort_singleton, place_dispatch, MultiGrid.place_agent]

/-- C2 (amended): `move_to_empty(agent)` draws its destination from the
EmptySet as it stands BEFORE the agent's own removal (so the vacated cell
is never re-selected), then moves the agent there; it fails with
`GridFull` exactly when the EmptySet is empty before the removal. -/
theorem C2_amended_move_to_empty (pol : Policy) (pick : List Coordinate → Coordinate)
    (st : GridState) (a : AgentId)
    (hpick : ∀ l : List Coordinate, l ≠ [] → pick l ∈ l) :
    ((move_to_empty pol pick st a).2 = some GridError.gridFull ↔ st.empties = ∅) ∧
    (st.empties ≠ ∅ →
      pick (empties_sorted st) ∈ st.empties ∧
      move_to_empty pol pick st a = move_agent pol st a (pick (empties_sorted st))) := by
  by_cases hemp : st.empties = ∅
  · have hcard : st.empties.card = 0 := by simp [hemp]
    refine ⟨?_, fun h => absurd hemp h⟩
    simp [move_to_empty, hcard, hemp]
  · have hcard : st.empties.card ≠ 0 := by
      simpa [Finset.card_eq_zero] using hemp
    have hrun : move_to_empty pol pick st a =
        move_agent pol st a (pick (empties_sorted st)) := by
      simp [move_to_empty, hcard]
    have hmem : pick (empties_sorted st) ∈ st.empties := by
      have hne : empties_sorted st ≠ [] := by
        intro h
        have := Finset.length_sort (s := st.empties) cle
        rw [empties_sorted] at h
        rw [h] at this
        exact hcard this.symm
      exact Finset.mem_sort cle |>.mp (hpick _ hne)
    refine ⟨?_, fun _ => ⟨hmem, hrun⟩⟩
    rw [hrun]
    simp only [iff_false_intro hemp]
    exact iff_of_false (move_agent_snd_ne_gridFull pol st a _) (fun h => h)

/-- Witness for C2 (amended): on the 2×2 grid with three empty cells the
draw is taken from the pre-removal EmptySet. -/
theorem C2_witness :
    st0.empties ≠ ∅ ∧
      (fun l : List Coordinate => l.headD (0, 0)) (empties_sorted st0) ∈ st0.empties ∧
      move_to_empty Policy.multi (fun l => l.headD (0, 0)) st0 0 =
        move_agent Policy.multi st0 0
          ((fun l : List Coordinate => l.headD (0, 0)) (empties_sorted st0)) :=
  ⟨by decide,
    (C2_amended_move_to_empty Policy.multi (fun l => l.headD (0, 0)) st0 0
      (fun l hl => by
        cases l with
        | nil => exact absurd rfl hl
        | cons x xs => simp [List.headD])).2 (by decide)⟩

/-- Witness for C10: assigning agent `1` into the previously empty cell
`(0, 1)` of the 2×2 grid leaves `(0, 1)` reported empty although the cell
now holds an agent. -/
theorem C10_witness :
    (0, 1) ∈ st0.empties ∧ ((1 : Int), (0 : Int)) ≠ ((0 : Int), (1 : Int)) ∧
      is_cell_empty (MultiGrid.setitem st0 (0, 1) 1) (0, 1) = true ∧
      (MultiGrid.setitem st0 (0, 1) 1).grid (0, 1) ≠ [] ∧
      (MultiGrid.setitem st0 (0, 1) 1).grid (1, 0) = st0.grid (1, 0) :=
  ⟨by decide, by decide,
    ((C10_setitem_appends_only st0 (0, 1) 1).2.2.2.2 (by decide)).1,
    ((C10_setitem_appends_only st0 (0, 1) 1).2.2.2.2 (by decide)).2,
    (C10_setitem_appends_only st0 (0, 1) 1).2.2.2.1 (1, 0) (by decide)⟩

end Mesa

